import Mathlib

/-!
Shallow embedding of `src/app.py` (Vj_synopsis_genrator): a Streamlit app
that asks a generative model for a report and formats the returned plain
text into a Word document.  The document-construction library is abstracted:
a rendered document is a list of styled blocks, and the possibility that the
library raises an exception is an explicit parameter.  Character-level
operations model Python string semantics for code points below 128 (ASCII);
non-ASCII Unicode digit/space/case behaviour is outside the model, as the
claims only concern ASCII text.
-/

namespace App

/-- Rendered document blocks, abstracting the python-docx calls in
`text_to_word_buffer` (src/app.py lines 95-135): `title` is the
`add_heading(..., level=0)` topic block, `blank` an empty `add_paragraph()`,
`heading lvl txt` an `add_heading(txt, level=lvl)`, and `body txt` a
justified `add_paragraph(txt)`. -/
inductive Block where
  | title (text : String)
  | blank
  | heading (level : Nat) (text : String)
  | body (text : String)
deriving DecidableEq, Repr

/-- Whether a block is the title block. -/
def Block.isTitle : Block → Bool
  | .title _ => true
  | _ => false

/-- Python whitespace (`str.strip`, regex `\s`) restricted to ASCII:
space, tab, newline, vertical tab, form feed, carriage return, and the
file/group/record/unit separators 28-31. -/
def isPySpace (c : Char) : Bool :=
  c = ' ' || c = '\t' || c = '\n' || c = '\r' ||
  c = Char.ofNat 11 || c = Char.ofNat 12 ||
  c = Char.ofNat 28 || c = Char.ofNat 29 || c = Char.ofNat 30 || c = Char.ofNat 31

/-- Python `str.upper` on ASCII text: uppercase each character. -/
def pyUpper (cs : List Char) : List Char :=
  cs.map Char.toUpper

/-- Python `str.split('\n')`: split on every newline; the empty string
splits to one empty field, so the result is never empty. -/
def splitLines : List Char → List (List Char)
  | [] => [[]]
  | c :: rest =>
    if c = '\n' then [] :: splitLines rest
    else
      match splitLines rest with
      | l :: ls => (c :: l) :: ls
      | [] => [[c]]

/-- Right half of Python `str.strip()`: remove trailing whitespace. -/
def rstrip (cs : List Char) : List Char :=
  (cs.reverse.dropWhile isPySpace).reverse

/-- Python `str.strip()` on ASCII text: remove leading and trailing
whitespace. -/
def pyStrip (cs : List Char) : List Char :=
  rstrip (cs.dropWhile isPySpace)

/-- Greedy matcher for the regex fragment `(\.\d+)*`: starting from `cs`,
repeatedly consume a dot followed by a maximal nonempty run of digits;
returns (consumed, remainder).  `fuel` bounds the recursion depth; each
iteration consumes at least two characters and spends one unit of fuel, so
`fuel = cs.length` (as used in `dotGroups`) never runs out. -/
def dotGroupsAux : Nat → List Char → List Char × List Char
  | 0, cs => ([], cs)
  | _ + 1, [] => ([], [])
  | fuel + 1, c :: rest =>
    if c = '.' ∧ rest.takeWhile Char.isDigit ≠ [] then
      let p := dotGroupsAux fuel (rest.dropWhile Char.isDigit)
      (c :: (rest.takeWhile Char.isDigit ++ p.1), p.2)
    else ([], c :: rest)

/-- Greedy `(\.\d+)*` matcher (see `dotGroupsAux`). -/
def dotGroups (cs : List Char) : List Char × List Char :=
  dotGroupsAux cs.length cs

/-- Embedding of `re.match(r'^(\d+(\.\d+)*)\s*(.*?):$', clean_line)`
(src/app.py line 110) on its actual domain: stripped lines, which contain
no newline.  Returns `some (group1, group3)` on a match, `none` otherwise.
The regex engine's behaviour on this pattern is deterministic: the greedy
`\d+(\.\d+)*` and `\s*` never backtrack because the tail `(.*?):$` succeeds
on a newline-free remainder exactly when its last character is a colon,
which no amount of backtracking can change; group 3 is then the remainder
after the greedily consumed whitespace, minus the final colon. -/
def headerMatch (cs : List Char) : Option (List Char × List Char) :=
  let d := cs.takeWhile Char.isDigit
  if d = [] then none
  else
    let p := dotGroups (cs.dropWhile Char.isDigit)
    let rest3 := p.2.dropWhile isPySpace
    match rest3.getLast? with
    | some ch => if ch = ':' then some (d ++ p.1, rest3.dropLast) else none
    | none => none

/-- Loop body of `text_to_word_buffer` for one input line (src/app.py
lines 104-135): strip the line; an empty result is a blank paragraph; a
line matching the heading regex becomes a level-1 or level-2 heading with
text `numbering ++ " " ++ title.strip().upper()`; anything else becomes a
body paragraph holding the stripped line. -/
def renderLine (line : List Char) : Block :=
  let clean_line := pyStrip line
  if clean_line = [] then Block.blank
  else
    match headerMatch clean_line with
    | some (numbering, group3) =>
      let title := pyUpper (pyStrip group3)
      if numbering.count '.' = 0 then
        Block.heading 1 (String.mk (numbering ++ ' ' :: title))
      else
        Block.heading 2 (String.mk (numbering ++ ' ' :: title))
    | none => Block.body (String.mk clean_line)

/-- Block sequence built by `text_to_word_buffer` (src/app.py lines
95-135): the uppercased topic as title, two blank paragraphs, then one
block per line of the stripped text split on newlines. -/
def renderBlocks (text_content topic : String) : List Block :=
  Block.title (String.mk (pyUpper topic.data)) ::
  Block.blank :: Block.blank ::
  (splitLines (pyStrip text_content.data)).map renderLine

/-- Embedding of `text_to_word_buffer` (src/app.py lines 82-144) with its
try/except: `docxExn = some e` models the document library raising an
exception with message `e` during construction, in which case the function
returns no payload and the formatting error string; otherwise it returns
the rendered block list.  Python's `(buffer, None) / (None, error)` pair
convention is rendered as `Except`. -/
def text_to_word_buffer (docxExn : Option String) (text_content topic : String) :
    Except String (List Block) :=
  match docxExn with
  | some e => Except.error ("Word Conversion Error: " ++ e)
  | none => Except.ok (renderBlocks text_content topic)

/-- Embedding of `generate_report_with_gemini` (src/app.py lines 30-78):
`apiCall` abstracts the outcome of `model.generate_content` (`.ok text` for
a response with that text, `.error e` for an exception with message `e`).
Python's `(text, None) / (None, error)` pair convention is rendered as
`Except`; on an exception no text is returned, only the error string.
The topic parameter only feeds the prompt template, whose effect is
absorbed into `apiCall`. -/
def generate_report_with_gemini (_topic : String) (apiCall : Except String String) :
    Except String String :=
  match apiCall with
  | Except.ok t => Except.ok t
  | Except.error e =>
    Except.error ("Report Generation Error: " ++ e ++ ". Please check your API key and input.")

/-- Download filename built in `main` (src/app.py line 196):
`topic.replace(' ', '_').replace('/', '_') + "_report.docx"`.  Python
`str.replace` with a one-character pattern replaces every occurrence,
i.e. maps that character pointwise. -/
def pyReplaceChar (old new : Char) (cs : List Char) : List Char :=
  cs.map fun c => if c = old then new else c

/-- The download filename for a topic (src/app.py line 196). -/
def filename (topic : String) : String :=
  String.mk (pyReplaceChar '/' '_' (pyReplaceChar ' ' '_' topic.data)) ++ "_report.docx"

/-- Observable outcome of one button press in `main`:  whether
`text_to_word_buffer` was invoked, the error message shown (if any), and
the offered download (blocks and filename), if any. -/
structure MainResult where
  formatterInvoked : Bool
  shownError : Option String
  download : Option (List Block × String)
deriving DecidableEq, Repr

/-- Embedding of the per-request flow of `main` (src/app.py lines 148-206)
after the button is pressed: empty topic aborts with an input error;
a generation error is shown and formatting is never attempted; a formatting
error is shown and no download is offered; otherwise the download button is
offered with the rendered document and the computed filename. -/
def main (topic : String) (apiCall : Except String String) (docxExn : Option String) :
    MainResult :=
  if topic = "" then
    { formatterInvoked := false
      shownError := some "Please enter a project topic to begin generation."
      download := none }
  else
    match generate_report_with_gemini topic apiCall with
    | Except.error err =>
      { formatterInvoked := false, shownError := some err, download := none }
    | Except.ok report_text =>
      match text_to_word_buffer docxExn report_text topic with
      | Except.error werr =>
        { formatterInvoked := true, shownError := some werr, download := none }
      | Except.ok blocks =>
        { formatterInvoked := true, shownError := none
          download := some (blocks, filename topic) }

/-- Modelled from the spec: the heading grammar as §8 states it, one or
more dot-separated groups of digits, optional whitespace, optional free
text, and a mandatory trailing colon ending the line
(`^\d+(\.\d+)*\s*.*:$` anchored on the whole line). -/
def IsDotGroup (g : List Char) : Prop :=
  ∃ ds : List Char, ds ≠ [] ∧ (∀ c ∈ ds, c.isDigit = true) ∧ g = '.' :: ds

/-- Modelled from the spec: a line matches the spec's heading grammar when
it decomposes as digits, further dot-digit groups, whitespace, free text,
and a final colon. -/
def specHeadingGrammar (cs : List Char) : Prop :=
  ∃ (d : List Char) (gs : List (List Char)) (w t : List Char),
    d ≠ [] ∧ (∀ c ∈ d, c.isDigit = true) ∧
    (∀ g ∈ gs, IsDotGroup g) ∧
    (∀ c ∈ w, isPySpace c = true) ∧
    cs = d ++ gs.flatten ++ w ++ t ++ [':']

/-! Structural lemmas about the embedded operations. -/

theorem splitLines_ne_nil (cs : List Char) : splitLines cs ≠ [] := by
  match cs with
  | [] => simp [splitLines]
  | c :: rest =>
    simp only [splitLines]
    split
    · simp
    · split <;> simp

theorem dotGroupsAux_append (fuel : Nat) :
    ∀ cs : List Char, (dotGroupsAux fuel cs).1 ++ (dotGroupsAux fuel cs).2 = cs := by
  induction fuel with
  | zero => intro cs; rfl
  | succ fuel ih =>
    intro cs
    match cs with
    | [] => rfl
    | c :: rest =>
      simp only [dotGroupsAux]
      split
      · simp [List.append_assoc, ih, List.takeWhile_append_dropWhile]
      · rfl

theorem dotGroupsAux_mem (fuel : Nat) :
    ∀ (cs : List Char) (ch : Char), ch ∈ (dotGroupsAux fuel cs).1 →
      ch = '.' ∨ ch.isDigit = true := by
  induction fuel with
  | zero => intro cs ch h; simp [dotGroupsAux] at h
  | succ fuel ih =>
    intro cs ch h
    match cs with
    | [] => simp [dotGroupsAux] at h
    | c :: rest =>
      simp only [dotGroupsAux] at h
      split at h
      · next hcond =>
        simp only [List.mem_cons, List.mem_append] at h
        rcases h with h | h | h
        · exact Or.inl (h ▸ hcond.1)
        · exact Or.inr (List.mem_takeWhile_imp h)
        · exact ih _ _ h
      · simp at h

theorem dotGroups_append (cs : List Char) :
    (dotGroups cs).1 ++ (dotGroups cs).2 = cs :=
  dotGroupsAux_append cs.length cs

theorem dotGroups_mem (cs : List Char) (ch : Char) (h : ch ∈ (dotGroups cs).1) :
    ch = '.' ∨ ch.isDigit = true :=
  dotGroupsAux_mem cs.length cs ch h

theorem headerMatch_nil : headerMatch [] = none := rfl

/-- The regex match succeeds exactly on lines whose first character is a
digit and whose last character is a colon (`\s*.*` absorbs everything in
between). -/
theorem headerMatch_isSome_iff (cs : List Char) :
    (headerMatch cs).isSome = true ↔
      ((∃ c cs2, cs = c :: cs2 ∧ c.isDigit = true) ∧ cs.getLast? = some ':') := by
  match cs with
  | [] => simp [headerMatch]
  | c :: rest =>
    by_cases hc : c.isDigit = true
    · -- the first character is a digit, so the digit group is nonempty
      have hd : (c :: rest).takeWhile Char.isDigit = c :: rest.takeWhile Char.isDigit :=
        List.takeWhile_cons_of_pos hc
      -- decompose the line into digits, dot-groups, whitespace and the rest
      set d := (c :: rest).takeWhile Char.isDigit with hdef
      set r1 := (c :: rest).dropWhile Char.isDigit with hr1def
      set p := dotGroups r1 with hpdef
      set rest3 := p.2.dropWhile isPySpace with hrest3
      have hsplit1 : d ++ r1 = c :: rest :=
        List.takeWhile_append_dropWhile Char.isDigit (c :: rest)
      have hsplit2 : p.1 ++ p.2 = r1 := dotGroups_append r1
      have hsplit3 : p.2.takeWhile isPySpace ++ rest3 = p.2 :=
        List.takeWhile_append_dropWhile isPySpace p.2
      have hcs : (d ++ (p.1 ++ (p.2.takeWhile isPySpace))) ++ rest3 = c :: rest := by
        calc (d ++ (p.1 ++ p.2.takeWhile isPySpace)) ++ rest3
            = d ++ (p.1 ++ (p.2.takeWhile isPySpace ++ rest3)) := by
              simp [List.append_assoc]
          _ = d ++ (p.1 ++ p.2) := by rw [hsplit3]
          _ = d ++ r1 := by rw [hsplit2]
          _ = c :: rest := hsplit1
      -- no character of the consumed prefix is a colon
      have hpre : ∀ ch ∈ d ++ (p.1 ++ (p.2.takeWhile isPySpace)), ch ≠ ':' := by
        intro ch hch
        simp only [List.mem_append] at hch
        rcases hch with hch | hch | hch
        · intro hcol
          have := List.mem_takeWhile_imp hch
          rw [hcol] at this
          simp [Char.isDigit] at this
        · intro hcol
          rcases dotGroups_mem r1 ch hch with h1 | h1
          · rw [hcol] at h1; exact absurd h1 (by decide)
          · rw [hcol] at h1; simp [Char.isDigit] at h1
        · intro hcol
          have := List.mem_takeWhile_imp hch
          rw [hcol] at this
          exact absurd this (by decide)
      -- the last character of the line is the last character of rest3
      have hlast : (c :: rest).getLast? = some ':' ↔ rest3.getLast? = some ':' := by
        rcases eq_or_ne rest3 [] with h3 | h3
        · rw [h3, List.append_nil] at hcs
          constructor
          · intro hco
            exfalso
            have hne : d ++ (p.1 ++ p.2.takeWhile isPySpace) ≠ [] := by
              rw [hcs]; simp
            rw [← hcs, List.getLast?_eq_getLast_of_ne_nil hne] at hco
            have hmem := List.getLast_mem hne
            have := hpre _ hmem
            simp only [Option.some.injEq] at hco
            exact this hco
          · intro hco; rw [h3] at hco; simp at hco
        · rw [← hcs, List.getLast?_append_of_ne_nil _ h3]
      -- evaluate headerMatch on this decomposition
      have hdne : d ≠ [] := by rw [hd]; simp
      have heval : headerMatch (c :: rest) =
          match rest3.getLast? with
          | some ch => if ch = ':' then some (d ++ p.1, rest3.dropLast) else none
          | none => none := by
        simp only [headerMatch, if_neg hdne]
      rw [heval]
      rcases h3 : rest3.getLast? with _ | ch
      · constructor
        · intro hsome
          exact absurd hsome (by simp)
        · rintro ⟨-, hco⟩
          have := hlast.mp hco
          rw [h3] at this
          exact absurd this (by simp)
      · by_cases hch : ch = ':'
        · constructor
          · intro _
            exact ⟨⟨c, rest, rfl, hc⟩, hlast.mpr (hch ▸ h3)⟩
          · intro _
            subst hch
            simp
        · constructor
          · intro hsome
            exfalso
            simp [hch] at hsome
          · rintro ⟨-, hco⟩
            exfalso
            have := hlast.mp hco
            rw [h3] at this
            exact hch (Option.some.inj this)
    · -- the first character is not a digit: no match, and no decomposition
      have hd : (c :: rest).takeWhile Char.isDigit = [] := by
        rw [List.takeWhile_cons_of_neg (by simpa using hc)]
      constructor
      · intro hsome
        exfalso
        simp only [headerMatch, hd, if_pos rfl] at hsome
        simp at hsome
      · rintro ⟨⟨c2, cs2, heq, hdig⟩, -⟩
        exfalso
        rw [List.cons.injEq] at heq
        exact hc (heq.1 ▸ hdig)

/-- The spec's heading grammar also accepts exactly the lines whose first
character is a digit and whose last character is a colon, because the free
text component absorbs everything in between. -/
theorem specHeadingGrammar_iff (cs : List Char) :
    specHeadingGrammar cs ↔
      ((∃ c cs2, cs = c :: cs2 ∧ c.isDigit = true) ∧ cs.getLast? = some ':') := by
  constructor
  · rintro ⟨d, gs, w, t, hd, hdig, -, -, rfl⟩
    constructor
    · match d, hd, hdig with
      | dc :: drest, _, hdig =>
        exact ⟨dc, drest ++ (gs.flatten ++ (w ++ (t ++ [':']))),
          by simp [List.append_assoc], hdig dc (by simp)⟩
    · have : d ++ gs.flatten ++ w ++ t ++ [':'] = (d ++ gs.flatten ++ w ++ t) ++ [':'] := by
        simp [List.append_assoc]
      rw [this, List.getLast?_concat]
  · rintro ⟨⟨c, cs2, rfl, hc⟩, hlast⟩
    rcases eq_or_ne cs2 [] with h2 | h2
    · exfalso
      rw [h2] at hlast
      simp only [List.getLast?_singleton, Option.some.injEq] at hlast
      rw [hlast] at hc
      exact absurd hc (by decide)
    · have hl2 : cs2.getLast? = some ':' := by
        rw [← hlast, ← List.singleton_append, List.getLast?_append_of_ne_nil _ h2]
      have hsplit : cs2.dropLast ++ [':'] = cs2 :=
        List.dropLast_append_getLast? ':' hl2
      refine ⟨[c], [], [], cs2.dropLast, by simp, by simpa using hc, by simp, by simp, ?_⟩
      have hshape : [c] ++ ([] : List (List Char)).flatten ++ [] ++ cs2.dropLast ++ [':'] =
          c :: (cs2.dropLast ++ [':']) := by simp
      rw [hshape, hsplit]

theorem renderLine_blank_iff (line : List Char) :
    renderLine line = Block.blank ↔ pyStrip line = [] := by
  unfold renderLine
  by_cases h : pyStrip line = []
  · simp [h]
  · simp only [if_neg h]
    cases hm : headerMatch (pyStrip line) with
    | none => simp [h]
    | some pr =>
      obtain ⟨numbering, group3⟩ := pr
      by_cases hc : numbering.count '.' = 0 <;> simp [hc, h]

theorem renderLine_of_headerMatch_none (line : List Char) (h1 : pyStrip line ≠ [])
    (h2 : headerMatch (pyStrip line) = none) :
    renderLine line = Block.body (String.mk (pyStrip line)) := by
  unfold renderLine
  rw [if_neg h1, h2]

theorem renderLine_of_headerMatch_some (line numbering group3 : List Char)
    (h : headerMatch (pyStrip line) = some (numbering, group3)) :
    renderLine line =
      Block.heading (if '.' ∈ numbering then 2 else 1)
        (String.mk (numbering ++ ' ' :: pyUpper (pyStrip group3))) := by
  have h1 : pyStrip line ≠ [] := by
    intro he
    rw [he, headerMatch_nil] at h
    exact Option.noConfusion h
  unfold renderLine
  rw [if_neg h1, h]
  by_cases hdot : '.' ∈ numbering
  · have hcount : ¬ numbering.count '.' = 0 := by
      rw [List.count_eq_zero]
      intro hq
      exact hq hdot
    simp [hcount, hdot]
  · have hcount : numbering.count '.' = 0 := List.count_eq_zero.mpr hdot
    simp [hcount, hdot]

theorem renderLine_heading_iff (line : List Char) (h1 : pyStrip line ≠ []) :
    (∃ lvl txt, renderLine line = Block.heading lvl txt) ↔
      (headerMatch (pyStrip line)).isSome = true := by
  cases hm : headerMatch (pyStrip line) with
  | none =>
    simp only [hm, Option.isSome_none, Bool.false_eq_true, iff_false]
    rintro ⟨lvl, txt, heq⟩
    rw [renderLine_of_headerMatch_none line h1 hm] at heq
    exact Block.noConfusion heq
  | some pr =>
    obtain ⟨numbering, group3⟩ := pr
    simp only [hm, Option.isSome_some, iff_true]
    exact ⟨_, _, renderLine_of_headerMatch_some line numbering group3 hm⟩

theorem pyStrip_cons_space (c : Char) (cs : List Char) (hc : isPySpace c = true) :
    pyStrip (c :: cs) = pyStrip cs := by
  unfold pyStrip
  rw [List.dropWhile_cons_of_pos hc]

theorem rstrip_concat_space (c : Char) (cs : List Char) (hc : isPySpace c = true) :
    rstrip (cs ++ [c]) = rstrip cs := by
  unfold rstrip
  rw [List.reverse_append, List.reverse_singleton, List.singleton_append,
    List.dropWhile_cons_of_pos hc]

theorem pyStrip_concat_space (c : Char) (cs : List Char) (hc : isPySpace c = true) :
    pyStrip (cs ++ [c]) = pyStrip cs := by
  induction cs with
  | nil =>
    simp only [List.nil_append]
    unfold pyStrip
    rw [List.dropWhile_cons_of_pos hc]
  | cons c2 cs2 ih =>
    by_cases h2 : isPySpace c2 = true
    · rw [List.cons_append, pyStrip_cons_space c2 _ h2, ih, pyStrip_cons_space c2 cs2 h2]
    · have hdrop : ∀ l, (c2 :: l).dropWhile isPySpace = c2 :: l := fun l =>
        List.dropWhile_cons_of_neg (by simp [h2])
      unfold pyStrip
      rw [List.cons_append, hdrop, hdrop]
      have := rstrip_concat_space c (c2 :: cs2) hc
      rw [List.cons_append] at this
      exact this

theorem renderBlocks_newline_left (text topic : String) :
    renderBlocks ("\n" ++ text) topic = renderBlocks text topic := by
  unfold renderBlocks
  rw [String.data_append]
  have : ("\n".data ++ text.data) = '\n' :: text.data := rfl
  rw [this, pyStrip_cons_space '\n' text.data (by decide)]

theorem renderBlocks_newline_right (text topic : String) :
    renderBlocks (text ++ "\n") topic = renderBlocks text topic := by
  unfold renderBlocks
  rw [String.data_append]
  have : (text.data ++ "\n".data) = text.data ++ ['\n'] := rfl
  rw [this, pyStrip_concat_space '\n' text.data (by decide)]

/-! The claims. -/

/-- C1: a non-empty trimmed line is classified as a heading exactly when
it matches the spec's anchored heading grammar (digit groups, optional
whitespace, optional free text, mandatory trailing colon); every other
non-empty line, including a heading-like line lacking the trailing colon,
is rendered as a body paragraph with its trimmed text. -/
theorem heading_classification (line : List Char) (h : pyStrip line ≠ []) :
    ((∃ lvl txt, renderLine line = Block.heading lvl txt) ↔
      specHeadingGrammar (pyStrip line))
  ∧ (¬ specHeadingGrammar (pyStrip line) →
      renderLine line = Block.body (String.mk (pyStrip line)))
  ∧ renderLine "Not a heading, no colon".data = Block.body "Not a heading, no colon" := by
  have hiff : (∃ lvl txt, renderLine line = Block.heading lvl txt) ↔
      specHeadingGrammar (pyStrip line) := by
    rw [renderLine_heading_iff line h, headerMatch_isSome_iff, specHeadingGrammar_iff]
  refine ⟨hiff, ?_, by decide⟩
  intro hng
  have hnone : headerMatch (pyStrip line) = none := by
    cases hm : headerMatch (pyStrip line) with
    | none => rfl
    | some pr =>
      exfalso
      apply hng
      rw [specHeadingGrammar_iff, ← headerMatch_isSome_iff, hm]
      rfl
  exact renderLine_of_headerMatch_none line h hnone

/-- Witness for C1 at the concrete line "1.2 X:". -/
theorem heading_classification_witness :
    ((∃ lvl txt, renderLine "1.2 X:".data = Block.heading lvl txt) ↔
      specHeadingGrammar (pyStrip "1.2 X:".data))
  ∧ (¬ specHeadingGrammar (pyStrip "1.2 X:".data) →
      renderLine "1.2 X:".data = Block.body (String.mk (pyStrip "1.2 X:".data)))
  ∧ renderLine "Not a heading, no colon".data = Block.body "Not a heading, no colon" :=
  heading_classification "1.2 X:".data (by decide)

/-- C2 (counterexample): on Scenario A's input the produced blocks differ
from the claimed sequence — the first heading's text is not
"1 INTRODUCTION", because the regex numbering group `(\d+(\.\d+)*)` cannot
absorb the dot of "1." and the leftover ". Introduction" becomes the
title. -/
theorem scenarioA_cex :
    renderBlocks "1. Introduction:\n\nThis is body text.\n\n1.1 Background:\nMore body text."
        "Test" ≠
      [Block.title "TEST", Block.blank, Block.blank, Block.heading 1 "1 INTRODUCTION",
       Block.blank, Block.body "This is body text.", Block.blank,
       Block.heading 2 "1.1 BACKGROUND", Block.body "More body text."] := by
  decide

/-- C2 (amended): Scenario A's input produces exactly the claimed block
sequence except that the level-1 heading's text is "1 . INTRODUCTION". -/
theorem scenarioA_blocks :
    renderBlocks "1. Introduction:\n\nThis is body text.\n\n1.1 Background:\nMore body text."
        "Test" =
      [Block.title "TEST", Block.blank, Block.blank, Block.heading 1 "1 . INTRODUCTION",
       Block.blank, Block.body "This is body text.", Block.blank,
       Block.heading 2 "1.1 BACKGROUND", Block.body "More body text."] := by
  decide

/-- C3 (counterexample): excluding only the title block, the rendered
block count exceeds the input line count by the two blank blocks emitted
with the title. -/
theorem blocks_count_cex :
    ((renderBlocks "a" "T").filter fun b => !b.isTitle).length ≠
      (splitLines (pyStrip "a".data)).length := by
  decide

/-- C3 (amended): excluding the title block and the two blank blocks
emitted with it, there is exactly one rendered block per input line, in
order: a blank block for each blank line and a heading or body block for
each non-blank line. -/
theorem blocks_mirror_lines (text topic : String) (line : List Char) :
    (renderBlocks text topic).length = 3 + (splitLines (pyStrip text.data)).length
  ∧ (renderBlocks text topic).drop 3 = (splitLines (pyStrip text.data)).map renderLine
  ∧ (pyStrip line = [] → renderLine line = Block.blank)
  ∧ (pyStrip line ≠ [] →
      (∃ lvl t, renderLine line = Block.heading lvl t) ∨
        ∃ t, renderLine line = Block.body t) := by
  refine ⟨by simp [renderBlocks]; omega, rfl, ?_, ?_⟩
  · intro h
    exact (renderLine_blank_iff line).mpr h
  · intro h
    cases hm : headerMatch (pyStrip line) with
    | none => exact Or.inr ⟨_, renderLine_of_headerMatch_none line h hm⟩
    | some pr =>
      obtain ⟨numbering, group3⟩ := pr
      exact Or.inl ⟨_, _, renderLine_of_headerMatch_some line numbering group3 hm⟩

/-- Witness for C3's amended theorem at the concrete line "7:". -/
theorem blocks_mirror_lines_witness :
    (∃ lvl t, renderLine "7:".data = Block.heading lvl t) ∨
      ∃ t, renderLine "7:".data = Block.body t :=
  (blocks_mirror_lines "x" "T" "7:".data).2.2.2 (by decide)

/-- C4: a matched heading is rendered at level 1 exactly when its
numbering contains no dot and at level 2 otherwise, regardless of depth;
"3:" is level 1, while "3.2:" and "3.2.1:" are both level 2. -/
theorem heading_level_rule (line numbering group3 : List Char)
    (h : headerMatch (pyStrip line) = some (numbering, group3)) :
    renderLine line =
      Block.heading (if '.' ∈ numbering then 2 else 1)
        (String.mk (numbering ++ ' ' :: pyUpper (pyStrip group3)))
  ∧ renderLine "3:".data = Block.heading 1 "3 "
  ∧ renderLine "3.2:".data = Block.heading 2 "3.2 "
  ∧ renderLine "3.2.1:".data = Block.heading 2 "3.2.1 " :=
  ⟨renderLine_of_headerMatch_some line numbering group3 h, by decide, by decide, by decide⟩

/-- Witness for C4 at the concrete line "2.5 Y:". -/
theorem heading_level_rule_witness :
    renderLine "2.5 Y:".data =
      Block.heading (if '.' ∈ ['2', '.', '5'] then 2 else 1)
        (String.mk (['2', '.', '5'] ++ ' ' :: pyUpper (pyStrip ['Y'])))
  ∧ renderLine "3:".data = Block.heading 1 "3 "
  ∧ renderLine "3.2:".data = Block.heading 2 "3.2 "
  ∧ renderLine "3.2.1:".data = Block.heading 2 "3.2.1 " :=
  heading_level_rule "2.5 Y:".data ['2', '.', '5'] ['Y'] (by decide)

/-- C5: the line "1:" matches with an empty title; the rendered heading
text is the numbering followed by a single space and nothing else. -/
theorem empty_title_heading :
    headerMatch "1:".data = some (['1'], [])
  ∧ String.mk (pyUpper (pyStrip ([] : List Char))) = ""
  ∧ renderLine "1:".data = Block.heading 1 "1 " := by
  decide

/-- C6: when the generation step fails, the surfaced error is the
generation error (with no partial text), the formatter is never invoked,
and no document payload or download is produced. -/
theorem generation_error_aborts (topic e : String) (docxExn : Option String)
    (h : topic ≠ "") :
    generate_report_with_gemini topic (Except.error e) =
      Except.error ("Report Generation Error: " ++ e ++ ". Please check your API key and input.")
  ∧ main topic (Except.error e) docxExn =
      { formatterInvoked := false
        shownError :=
          some ("Report Generation Error: " ++ e ++ ". Please check your API key and input.")
        download := none } := by
  refine ⟨rfl, ?_⟩
  simp only [main, if_neg h, generate_report_with_gemini]

/-- Witness for C6 at a concrete topic and error. -/
theorem generation_error_aborts_witness :
    generate_report_with_gemini "T" (Except.error "boom") =
      Except.error ("Report Generation Error: " ++ "boom" ++ ". Please check your API key and input.")
  ∧ main "T" (Except.error "boom") none =
      { formatterInvoked := false
        shownError :=
          some ("Report Generation Error: " ++ "boom" ++ ". Please check your API key and input.")
        download := none } :=
  generation_error_aborts "T" "boom" none (by decide)

/-- C7: an exception during document construction is caught inside the
formatter, which returns no payload and a formatting error distinct from
any generation error; the flow then shows that error and offers no
download. -/
theorem formatting_error_caught (topic text apiText e e2 : String) (h : topic ≠ "") :
    text_to_word_buffer (some e) text topic =
      Except.error ("Word Conversion Error: " ++ e)
  ∧ main topic (Except.ok apiText) (some e) =
      { formatterInvoked := true
        shownError := some ("Word Conversion Error: " ++ e)
        download := none }
  ∧ ("Word Conversion Error: " ++ e) ≠ ("Report Generation Error: " ++ e2) := by
  refine ⟨rfl, ?_, ?_⟩
  · simp only [main, if_neg h, generate_report_with_gemini, text_to_word_buffer]
  · intro heq
    have h1 : ("Word Conversion Error: " ++ e).data.head? = some 'W' := by
      rw [String.data_append]; rfl
    have h2 : ("Report Generation Error: " ++ e2).data.head? = some 'R' := by
      rw [String.data_append]; rfl
    rw [heq, h2] at h1
    exact absurd h1 (by decide)

/-- Witness for C7 at concrete strings. -/
theorem formatting_error_caught_witness :
    text_to_word_buffer (some "disk full") "body" "T" =
      Except.error ("Word Conversion Error: " ++ "disk full")
  ∧ main "T" (Except.ok "body") (some "disk full") =
      { formatterInvoked := true
        shownError := some ("Word Conversion Error: " ++ "disk full")
        download := none }
  ∧ ("Word Conversion Error: " ++ "disk full") ≠ ("Report Generation Error: " ++ "x") :=
  formatting_error_caught "T" "body" "body" "disk full" "x" (by decide)

/-- C8: the whole text is stripped before splitting on newlines, so blank
lines at the very start and end are dropped while interior blank lines
are preserved; each line is itself stripped, a line stripping to empty
yields exactly a blank block, and an unmatched non-empty line becomes a
body paragraph holding exactly its stripped text. -/
theorem strip_split_pipeline (text topic : String) (line : List Char) :
    renderBlocks ("\n" ++ text) topic = renderBlocks text topic
  ∧ renderBlocks (text ++ "\n") topic = renderBlocks text topic
  ∧ renderBlocks text topic =
      Block.title (String.mk (pyUpper topic.data)) :: Block.blank :: Block.blank ::
        (splitLines (pyStrip text.data)).map renderLine
  ∧ (renderLine line = Block.blank ↔ pyStrip line = [])
  ∧ (pyStrip line ≠ [] → headerMatch (pyStrip line) = none →
      renderLine line = Block.body (String.mk (pyStrip line)))
  ∧ renderBlocks "a\n\nb" "T" =
      [Block.title "T", Block.blank, Block.blank,
       Block.body "a", Block.blank, Block.body "b"] :=
  ⟨renderBlocks_newline_left text topic, renderBlocks_newline_right text topic, rfl,
    renderLine_blank_iff line, renderLine_of_headerMatch_none line, by decide⟩

/-- Witness for C8 at the concrete line " b ". -/
theorem strip_split_pipeline_witness :
    renderLine " b ".data = Block.body (String.mk (pyStrip " b ".data)) :=
  (strip_split_pipeline "x" "T" " b ".data).2.2.2.2.1 (by decide) (by decide)

/-- C9: the download filename is the topic with every space and every
forward slash replaced by an underscore, followed by "_report.docx". -/
theorem filename_rule (topic : String) :
    filename topic =
      String.mk (topic.data.map fun c => if c = ' ' || c = '/' then '_' else c) ++
        "_report.docx"
  ∧ filename "A/B Test" = "A_B_Test_report.docx" := by
  constructor
  · unfold filename pyReplaceChar
    rw [List.map_map]
    have hpt : ∀ c : Char,
        ((fun c => if c = '/' then '_' else c) ∘ fun c => if c = ' ' then '_' else c) c =
          if c = ' ' || c = '/' then '_' else c := by
      intro c
      by_cases h1 : c = ' ' <;> by_cases h2 : c = '/' <;>
        simp [Function.comp, h1, h2]
    rw [List.map_congr_left fun c _ => hpt c]
  · decide

/-- C10: a text that is empty or all whitespace still formats
successfully, producing the title block, its two blank blocks, and exactly
one further blank block (the stripped text splits into a single empty
line). -/
theorem empty_text_single_blank (text topic : String)
    (h : ∀ c ∈ text.data, isPySpace c = true) :
    text_to_word_buffer none text topic =
      Except.ok [Block.title (String.mk (pyUpper topic.data)),
        Block.blank, Block.blank, Block.blank] := by
  have hs : pyStrip text.data = [] := by
    unfold pyStrip rstrip
    rw [List.dropWhile_eq_nil_iff.mpr h]
    rfl
  unfold text_to_word_buffer renderBlocks
  rw [hs]
  rfl

/-- Witness for C10 at a concrete whitespace-only text. -/
theorem empty_text_single_blank_witness :
    text_to_word_buffer none " \n " "T" =
      Except.ok [Block.title (String.mk (pyUpper "T".data)),
        Block.blank, Block.blank, Block.blank] :=
  empty_text_single_blank " \n " "T" (by decide)

end App
